import Mathlib

/-!
Shallow embedding of `src/benchmarking/calculate_mcp_metrics.py` (RecapKt).

The data classes (`RawSemanticData`, `RawLLMData`, `MetricStats`, `PairwiseResults`,
`SystemResults`, `MCPResults`) and the methods of `CalculateMCPMetrics` are translated
directly from the source.  Python exceptions are modelled by `Except MState MState`:
`.error s` is a raised exception observed with object state `s`, so mutations performed
before the raise are kept, matching in-place mutation of the Python object.  Scores are
rationals.  The external collaborators (dataset systems under test, scorers, random
source) are out-of-repository modules and appear as parameters, see `Oracles`.
-/

namespace RecapKt

/-- One chat message; the code reads `query.message` and `ideal_response.message`. -/
structure Msg where
  message : String
deriving DecidableEq

/-- One element of a session list; the replay engine reads and pops
`dialogue[-1].messages` in place. -/
structure Block where
  messages : List Msg
deriving DecidableEq

/-- A session as iterated by `calculate`: a list whose last element carries the
messages that are replayed. -/
abbrev Session := List Block

/-- `RawSemanticData`: append-only per-metric raw sample buffers. -/
structure RawSemanticData where
  precision : List ℚ := []
  «recall» : List ℚ := []
  f1 : List ℚ := []
deriving DecidableEq

/-- `RawLLMData`: append-only per-metric raw sample buffers. -/
structure RawLLMData where
  faithfulness : List ℚ := []
  informativeness : List ℚ := []
  coherency : List ℚ := []
deriving DecidableEq

/-- One `{"recsum": _, "baseline": _, "draw": _}` counter dictionary. -/
structure PairCounts where
  recsum : ℕ := 0
  baseline : ℕ := 0
  draw : ℕ := 0
deriving DecidableEq

/-- `PairwiseResults`: win/draw tallies per preference metric. -/
structure PairwiseResults where
  faithfulness : PairCounts := {}
  informativeness : PairCounts := {}
  coherency : PairCounts := {}
deriving DecidableEq

/-- `PairwiseResults.get_total_count`: `sum(self.faithfulness.values())`. -/
def PairwiseResults.get_total_count (p : PairwiseResults) : ℕ :=
  p.faithfulness.recsum + p.faithfulness.baseline + p.faithfulness.draw

/-- `MetricStats`.  The source stores `std = np.std(values)` (population standard
deviation, a float); to stay in exact arithmetic the embedding carries its square
`std_sq` (the population variance), so the stored std is `Real.sqrt std_sq`. -/
structure MetricStats where
  mean : ℚ := 0
  std_sq : ℚ := 0
  min : ℚ := 0
  max : ℚ := 0
  count : ℕ := 0
deriving DecidableEq

/-- `np.mean`. -/
def np_mean (l : List ℚ) : ℚ := l.sum / l.length

/-- Square of `np.std`: the population variance, dividing by `N` (not `N - 1`). -/
def np_var (l : List ℚ) : ℚ :=
  ((l.map fun x => (x - np_mean l) ^ 2).sum) / l.length

/-- `np.min` on a nonempty list (0 on the empty list, which the source never hits). -/
def np_min : List ℚ → ℚ
  | [] => 0
  | [x] => x
  | x :: y :: xs => min x (np_min (y :: xs))

/-- `np.max` on a nonempty list (0 on the empty list, which the source never hits). -/
def np_max : List ℚ → ℚ
  | [] => 0
  | [x] => x
  | x :: y :: xs => max x (np_max (y :: xs))

/-- `MetricStats.from_values`: all-zero sentinel on the empty list, otherwise
mean / population variance / min / max / count. -/
def MetricStats.from_values (values : List ℚ) : MetricStats :=
  if values = [] then {}
  else
    { mean := np_mean values
      std_sq := np_var values
      min := np_min values
      max := np_max values
      count := values.length }

/-- Modelled from the spec: the ordinal result of one pairwise judgment
(`ComparisonResult` lives in `llm_evaluation.py`, which is not under `src/`);
per the spec it is one of first-better / second-better / tie. -/
inductive ComparisonResult where
  | RESPONSE_1_BETTER
  | RESPONSE_2_BETTER
  | TIE
deriving DecidableEq

/-- Result of `SemanticSimilarity.compute_similarity` (external scorer interface). -/
structure SemScore where
  precision : ℚ
  «recall» : ℚ
  f1 : ℚ
deriving DecidableEq

/-- Result of `LLMEvaluation.evaluate_single` (external scorer interface). -/
structure LLMScore where
  faithfulness_score : ℚ
  informativeness_score : ℚ
  coherency_score : ℚ
deriving DecidableEq

/-- Result of `LLMEvaluation.evaluate_pairwise` (external scorer interface). -/
structure PairScore where
  faithfulness : ComparisonResult
  informativeness : ComparisonResult
  coherency : ComparisonResult
deriving DecidableEq

/-- Modelled from the spec: the external collaborators of `CalculateMCPMetrics`
(the two systems under test, the two scorers, `str` rendering of a block, and the
random source), none of which live under `src/`.  A fallible call returns `Option`:
`none` is a raised exception.  `coins n` is the n-th draw of `random.random() < 0.5`. -/
structure Oracles where
  recsum : Session → String → Option String
  baseline : Session → String → Option String
  semantic : String → String → Option SemScore
  llm_single : String → String → String → Option LLMScore
  llm_pairwise : String → String → String → String → Option PairScore
  render : Block → String
  coins : ℕ → Bool

/-- All fallible collaborator calls succeed. -/
def Oracles.Total (O : Oracles) : Prop :=
  (∀ s q, (O.recsum s q).isSome) ∧
  (∀ s q, (O.baseline s q).isSome) ∧
  (∀ a b, (O.semantic a b).isSome) ∧
  (∀ a b c, (O.llm_single a b c).isSome) ∧
  (∀ a b c d, (O.llm_pairwise a b c d).isSome)

/-- The mutable state of a `CalculateMCPMetrics` object: the dataset contents
(`self.dataset.sessions`, `self.dataset.memory`) together with the accumulator
fields set up in `__init__`. -/
structure MState where
  sessions : List Session
  memory : List (List String)
  recsum_semantic_data : RawSemanticData := {}
  baseline_semantic_data : RawSemanticData := {}
  recsum_llm_data : RawLLMData := {}
  baseline_llm_data : RawLLMData := {}
  pairwise_data : PairwiseResults := {}
  message_count : ℕ := 0
  n_samples : ℕ := 30
  is_calculated : Bool := false
  coin_idx : ℕ := 0
deriving DecidableEq

namespace CalculateMCPMetrics

/-- Python control flow: `.error σ` is an uncaught exception leaving state `σ`. -/
abbrev ExceptSt := Except MState MState

/-- The object state carried by either outcome. -/
def stateOf : ExceptSt → MState
  | .ok σ => σ
  | .error σ => σ

/-- Did the call return normally? -/
def isOkE : ExceptSt → Bool
  | .ok _ => true
  | .error _ => false

/-- `self.dataset.sessions[i] = s` (in-place mutation of one session). -/
def setSession (σ : MState) (i : ℕ) (s : Session) : MState :=
  { σ with sessions := σ.sessions.set i s }

/-- `_update_semantic_scores`: score recsum then baseline against the ideal response,
appending precision/recall/f1 for each.  The recsum appends happen before the baseline
scorer call, so a failure there keeps the recsum samples. -/
def _update_semantic_scores (O : Oracles)
    (recsum_response baseline_response ideal_response : String) (σ : MState) : ExceptSt :=
  match O.semantic recsum_response ideal_response with
  | none => .error σ
  | some rs =>
    let σ1 : MState :=
      { σ with
        recsum_semantic_data :=
          { «recall» := σ.recsum_semantic_data.«recall» ++ [rs.«recall»]
            precision := σ.recsum_semantic_data.precision ++ [rs.precision]
            f1 := σ.recsum_semantic_data.f1 ++ [rs.f1] } }
    match O.semantic baseline_response ideal_response with
    | none => .error σ1
    | some bs =>
      .ok { σ1 with
        baseline_semantic_data :=
          { «recall» := σ1.baseline_semantic_data.«recall» ++ [bs.«recall»]
            precision := σ1.baseline_semantic_data.precision ++ [bs.precision]
            f1 := σ1.baseline_semantic_data.f1 ++ [bs.f1] } }

/-- `_update_llm_single_scores`: one judgment call per system, recsum first. -/
def _update_llm_single_scores (O : Oracles)
    (recsum_response baseline_response context memory : String) (σ : MState) : ExceptSt :=
  match O.llm_single context memory recsum_response with
  | none => .error σ
  | some rs =>
    let σ1 : MState :=
      { σ with
        recsum_llm_data :=
          { faithfulness := σ.recsum_llm_data.faithfulness ++ [rs.faithfulness_score]
            informativeness := σ.recsum_llm_data.informativeness ++ [rs.informativeness_score]
            coherency := σ.recsum_llm_data.coherency ++ [rs.coherency_score] } }
    match O.llm_single context memory baseline_response with
    | none => .error σ1
    | some bs =>
      .ok { σ1 with
        baseline_llm_data :=
          { faithfulness := σ1.baseline_llm_data.faithfulness ++ [bs.faithfulness_score]
            informativeness := σ1.baseline_llm_data.informativeness ++ [bs.informativeness_score]
            coherency := σ1.baseline_llm_data.coherency ++ [bs.coherency_score] } }

/-- The per-metric body of the loop in `_update_pairwise_counts`. -/
def bumpCount (pc : PairCounts) (v : ComparisonResult) (recsum_first : Bool) : PairCounts :=
  match v with
  | .RESPONSE_1_BETTER =>
    if recsum_first then { pc with recsum := pc.recsum + 1 }
    else { pc with baseline := pc.baseline + 1 }
  | .RESPONSE_2_BETTER =>
    if recsum_first then { pc with baseline := pc.baseline + 1 }
    else { pc with recsum := pc.recsum + 1 }
  | .TIE => { pc with draw := pc.draw + 1 }

/-- `_update_pairwise_counts`: the source iterates the loop body over the three
metric names; here the loop is unrolled. -/
def _update_pairwise_counts (score : PairScore) (recsum_first : Bool)
    (p : PairwiseResults) : PairwiseResults :=
  { faithfulness := bumpCount p.faithfulness score.faithfulness recsum_first
    informativeness := bumpCount p.informativeness score.informativeness recsum_first
    coherency := bumpCount p.coherency score.coherency recsum_first }

/-- `_update_llm_pairwise_scores`: draw the order flag, call the pairwise judge with
the responses in that order, then map the ordinal result back through the flag. -/
def _update_llm_pairwise_scores (O : Oracles)
    (context memory recsum_response baseline_response : String) (σ : MState) : ExceptSt :=
  let randomize_order := O.coins σ.coin_idx
  let σ0 : MState := { σ with coin_idx := σ.coin_idx + 1 }
  if randomize_order then
    match O.llm_pairwise context memory recsum_response baseline_response with
    | none => .error σ0
    | some score =>
      .ok { σ0 with pairwise_data := _update_pairwise_counts score true σ0.pairwise_data }
  else
    match O.llm_pairwise context memory baseline_response recsum_response with
    | none => .error σ0
    | some score =>
      .ok { σ0 with pairwise_data := _update_pairwise_counts score false σ0.pairwise_data }

/-- The `while dialogue[-1].messages:` loop of `_process_dialogue`, phrased on the
reversed list of remaining messages of the final block (`list.pop()` removes the last
element, so the head of the reversed list is the next query). -/
def dialogue_loop (O : Oracles) (i : ℕ) (front : List Block) (ideal_response : Msg) :
    List Msg → MState → ExceptSt
  | [], σ => .ok σ
  | query :: rest, σ =>
    let σa : MState := { σ with message_count := σ.message_count + 1 }
    let cur : Session := front ++ [⟨rest.reverse⟩]
    let σb : MState := setSession σa i cur
    match O.recsum cur query.message with
    | none => .error σb
    | some recsum_response =>
      match O.baseline cur query.message with
      | none => .error σb
      | some baseline_response =>
        match _update_semantic_scores O recsum_response baseline_response
            ideal_response.message σb with
        | .error σ1 => .error σ1
        | .ok σ1 =>
          let context := O.render ⟨rest.reverse⟩
          match σ1.memory[i]? with
          | none => .error σ1
          | some mrow =>
            match mrow.getLast? with
            | none => .error σ1
            | some memory =>
              match _update_llm_single_scores O recsum_response baseline_response
                  context memory σ1 with
              | .error σ2 => .error σ2
              | .ok σ2 =>
                match _update_llm_pairwise_scores O context memory recsum_response
                    baseline_response σ2 with
                | .error σ3 => .error σ3
                | .ok σ3 => dialogue_loop O i front ideal_response rest σ3

/-- `_process_dialogue`: pop the ideal response from the final block (IndexError —
modelled as `.error` — when the session or its final message list is empty), then
run the replay loop.  The pop mutates the stored session in place. -/
def _process_dialogue (O : Oracles) (σ : MState) (i : ℕ) : ExceptSt :=
  let dialogue := σ.sessions.getD i []
  match dialogue.getLast? with
  | none => .error σ
  | some last =>
    match last.messages.reverse with
    | [] => .error σ
    | ideal_response :: rest =>
      let front := dialogue.dropLast
      let σ0 := setSession σ i (front ++ [⟨rest.reverse⟩])
      dialogue_loop O i front ideal_response rest σ0

/-- The `for i, dialogue in enumerate(dialogues)` loop of `calculate`, by index. -/
def calculate_loop (O : Oracles) : List ℕ → MState → ExceptSt
  | [], σ => .ok σ
  | i :: idxs, σ =>
    match _process_dialogue O σ i with
    | .error σ1 => .error σ1
    | .ok σ1 => calculate_loop O idxs σ1

/-- `calculate`: process every session (the `.copy()` of the session list is shallow,
so the per-session mutations hit the stored sessions), then set `_is_calculated`. -/
def calculate (O : Oracles) (σ : MState) : ExceptSt :=
  match calculate_loop O (List.range σ.sessions.length) σ with
  | .error σ1 => .error σ1
  | .ok σ1 => .ok { σ1 with is_calculated := true }

/-- The metadata dictionary built inside `results`; `timestamp` is the current
clock value (`datetime.now()`), passed in as a parameter. -/
structure Metadata where
  timestamp : ℕ
  n_samples : ℕ
  message_count : ℕ
  version : String
deriving DecidableEq

/-- `SystemResults`. -/
structure SystemResults where
  semantic_precision : MetricStats := {}
  semantic_recall : MetricStats := {}
  semantic_f1 : MetricStats := {}
  llm_faithfulness : MetricStats := {}
  llm_informativeness : MetricStats := {}
  llm_coherency : MetricStats := {}
deriving DecidableEq

/-- `MCPResults`. -/
structure MCPResults where
  metadata : Metadata
  recsum_results : SystemResults
  baseline_results : SystemResults
  pairwise_results : PairwiseResults
deriving DecidableEq

/-- The `MCPResults(...)` constructor call inside the `results` property: every
access recomputes all twelve `MetricStats` from the raw buffers and stamps the
current time. -/
def buildReport (σ : MState) (now : ℕ) : MCPResults :=
  { metadata :=
      { timestamp := now
        n_samples := σ.n_samples
        message_count := σ.message_count
        version := "1.0" }
    recsum_results :=
      { semantic_precision := MetricStats.from_values σ.recsum_semantic_data.precision
        semantic_recall := MetricStats.from_values σ.recsum_semantic_data.«recall»
        semantic_f1 := MetricStats.from_values σ.recsum_semantic_data.f1
        llm_faithfulness := MetricStats.from_values σ.recsum_llm_data.faithfulness
        llm_informativeness := MetricStats.from_values σ.recsum_llm_data.informativeness
        llm_coherency := MetricStats.from_values σ.recsum_llm_data.coherency }
    baseline_results :=
      { semantic_precision := MetricStats.from_values σ.baseline_semantic_data.precision
        semantic_recall := MetricStats.from_values σ.baseline_semantic_data.«recall»
        semantic_f1 := MetricStats.from_values σ.baseline_semantic_data.f1
        llm_faithfulness := MetricStats.from_values σ.baseline_llm_data.faithfulness
        llm_informativeness := MetricStats.from_values σ.baseline_llm_data.informativeness
        llm_coherency := MetricStats.from_values σ.baseline_llm_data.coherency }
    pairwise_results := σ.pairwise_data }

/-- The `results` property: trigger `calculate` lazily, then build a fresh report. -/
def results (O : Oracles) (σ : MState) (now : ℕ) : Except MState (MCPResults × MState) :=
  if σ.is_calculated then .ok (buildReport σ now, σ)
  else
    match calculate O σ with
    | .error σ1 => .error σ1
    | .ok σ1 => .ok (buildReport σ1 now, σ1)

/-- The per-metric raw-sample buffers of the two systems are pairwise of equal
length. -/
def Balanced (σ : MState) : Prop :=
  σ.recsum_semantic_data.precision.length = σ.baseline_semantic_data.precision.length ∧
  σ.recsum_semantic_data.«recall».length = σ.baseline_semantic_data.«recall».length ∧
  σ.recsum_semantic_data.f1.length = σ.baseline_semantic_data.f1.length ∧
  σ.recsum_llm_data.faithfulness.length = σ.baseline_llm_data.faithfulness.length ∧
  σ.recsum_llm_data.informativeness.length = σ.baseline_llm_data.informativeness.length ∧
  σ.recsum_llm_data.coherency.length = σ.baseline_llm_data.coherency.length

instance (σ : MState) : Decidable (Balanced σ) := by
  unfold Balanced; infer_instance

/-- A run of completed pairwise judgments (each: the judge result and the order
flag), applied to a tally. -/
def applyJudgments (js : List (PairScore × Bool)) (p : PairwiseResults) : PairwiseResults :=
  js.foldl (fun acc j => _update_pairwise_counts j.1 j.2 acc) p

/-- The sum of the three counters of one metric dictionary. -/
def sum3 (pc : PairCounts) : ℕ := pc.recsum + pc.baseline + pc.draw

end CalculateMCPMetrics

/-- Collaborators that always succeed, returning fixed values. -/
def totalOracles : Oracles :=
  { recsum := fun _ _ => some "R"
    baseline := fun _ _ => some "B"
    semantic := fun _ _ => some ⟨1, 1, 1⟩
    llm_single := fun _ _ _ => some ⟨1, 1, 1⟩
    llm_pairwise := fun _ _ _ _ => some ⟨.TIE, .TIE, .TIE⟩
    render := fun _ => "ctx"
    coins := fun _ => true }

/-- Collaborators whose pairwise judge always raises. -/
def pairFailOracles : Oracles :=
  { totalOracles with llm_pairwise := fun _ _ _ _ => none }

/-- A fresh object over two sessions, each one block with two messages. -/
def stTwoSessions : MState :=
  { sessions := [[⟨[⟨"a"⟩, ⟨"b"⟩]⟩], [⟨[⟨"c"⟩, ⟨"d"⟩]⟩]], memory := [["m0"], ["m1"]] }

/-- A fresh object over one session with one query plus the ideal response. -/
def stOneQuery : MState :=
  { sessions := [[⟨[⟨"q"⟩, ⟨"i"⟩]⟩]], memory := [["m"]] }

/-- A fresh object over one session holding only the ideal response. -/
def stIdealOnly : MState :=
  { sessions := [[⟨[⟨"x"⟩]⟩]], memory := [["m"]] }

/-- An object with an empty dataset that is already marked calculated. -/
def stCalculated : MState :=
  { sessions := [], memory := [], is_calculated := true }

/-- A fresh object over one session whose final block has no messages. -/
def stEmptyFinal : MState :=
  { sessions := [[⟨[]⟩]], memory := [] }

/-- The oracle bundle `totalOracles` never fails. -/
theorem totalOracles_total : totalOracles.Total :=
  ⟨fun _ _ => rfl, fun _ _ => rfl, fun _ _ => rfl, fun _ _ _ => rfl, fun _ _ _ _ => rfl⟩

theorem np_min_le {l : List ℚ} {y : ℚ} (hy : y ∈ l) : np_min l ≤ y := by
  induction l with
  | nil => cases hy
  | cons x xs ih =>
    cases xs with
    | nil =>
      rcases List.mem_singleton.mp hy with rfl
      simp [np_min]
    | cons z zs =>
      rcases List.mem_cons.mp hy with rfl | h
      · simp [np_min]
      · calc np_min (x :: z :: zs) ≤ np_min (z :: zs) := by simp [np_min]
          _ ≤ y := ih h

theorem le_np_max {l : List ℚ} {y : ℚ} (hy : y ∈ l) : y ≤ np_max l := by
  induction l with
  | nil => cases hy
  | cons x xs ih =>
    cases xs with
    | nil =>
      rcases List.mem_singleton.mp hy with rfl
      simp [np_max]
    | cons z zs =>
      rcases List.mem_cons.mp hy with rfl | h
      · simp [np_max]
      · calc y ≤ np_max (z :: zs) := ih h
          _ ≤ np_max (x :: z :: zs) := by simp [np_max]

theorem length_cast_pos {l : List ℚ} (hl : l ≠ []) : (0 : ℚ) < l.length := by
  exact_mod_cast List.length_pos.mpr hl

theorem np_min_le_np_mean (l : List ℚ) (hl : l ≠ []) : np_min l ≤ np_mean l := by
  rw [np_mean, le_div_iff₀ (length_cast_pos hl)]
  have h := List.card_nsmul_le_sum l (np_min l) fun _ hx => np_min_le hx
  rw [nsmul_eq_mul] at h
  linarith

theorem np_mean_le_np_max (l : List ℚ) (hl : l ≠ []) : np_mean l ≤ np_max l := by
  rw [np_mean, div_le_iff₀ (length_cast_pos hl)]
  have h := List.sum_le_card_nsmul l (np_max l) fun _ hx => le_np_max hx
  rw [nsmul_eq_mul] at h
  linarith

theorem np_var_nonneg (l : List ℚ) : 0 ≤ np_var l := by
  unfold np_var
  apply div_nonneg
  · apply List.sum_nonneg
    intro x hx
    rcases List.mem_map.mp hx with ⟨y, _, rfl⟩
    positivity
  · positivity

theorem np_var_mul_length (l : List ℚ) (hl : l ≠ []) :
    np_var l * l.length = (l.map fun x => (x - np_mean l) ^ 2).sum := by
  unfold np_var
  rw [div_mul_cancel₀]
  exact ne_of_gt (length_cast_pos hl)

/-- Claim C9: `MetricStats.from_values` returns `count` equal to the list length with
`min ≤ mean ≤ max` and a nonnegative population variance (dividing by `N`, not
`N - 1`, so the stored standard deviation `Real.sqrt std_sq` is well defined and
nonnegative) on every nonempty list, and the all-zero sentinel on the empty list. -/
theorem from_values_spec (l : List ℚ) :
    (l = [] →
      MetricStats.from_values l =
        { mean := 0, std_sq := 0, min := 0, max := 0, count := 0 }) ∧
    (l ≠ [] →
      (MetricStats.from_values l).count = l.length ∧
      (MetricStats.from_values l).min ≤ (MetricStats.from_values l).mean ∧
      (MetricStats.from_values l).mean ≤ (MetricStats.from_values l).max ∧
      0 ≤ (MetricStats.from_values l).std_sq ∧
      (MetricStats.from_values l).std_sq * l.length
        = (l.map fun x => (x - (MetricStats.from_values l).mean) ^ 2).sum) := by
  constructor
  · intro h; subst h; rfl
  · intro h
    have hfv : MetricStats.from_values l =
        { mean := np_mean l, std_sq := np_var l, min := np_min l, max := np_max l,
          count := l.length } := by
      simp [MetricStats.from_values, h]
    rw [hfv]
    exact ⟨rfl, np_min_le_np_mean l h, np_mean_le_np_max l h, np_var_nonneg l,
      np_var_mul_length l h⟩

/-- Witness for C9 at the empty list and at `[0]`. -/
theorem from_values_spec_witness :
    (MetricStats.from_values ([] : List ℚ) =
      { mean := 0, std_sq := 0, min := 0, max := 0, count := 0 }) ∧
    ((MetricStats.from_values [(0 : ℚ)]).count = [(0 : ℚ)].length ∧
      (MetricStats.from_values [(0 : ℚ)]).min ≤ (MetricStats.from_values [(0 : ℚ)]).mean ∧
      (MetricStats.from_values [(0 : ℚ)]).mean ≤ (MetricStats.from_values [(0 : ℚ)]).max ∧
      0 ≤ (MetricStats.from_values [(0 : ℚ)]).std_sq ∧
      (MetricStats.from_values [(0 : ℚ)]).std_sq * [(0 : ℚ)].length
        = ([(0 : ℚ)].map fun x =>
            (x - (MetricStats.from_values [(0 : ℚ)]).mean) ^ 2).sum) :=
  ⟨(from_values_spec []).1 rfl, (from_values_spec [0]).2 (by decide)⟩

section PairwiseClaims
open CalculateMCPMetrics

/-- Claim C6: `_update_pairwise_counts` maps the ordinal judge result back through
the order flag: first-is-better increments the recsum counter when recsum went
first and the baseline counter otherwise, symmetrically for second-is-better,
and a tie increments the draw counter; stated here for the faithfulness metric,
the other two metrics being updated by the same unrolled loop body. -/
theorem update_pairwise_counts_order_mapping (p : PairwiseResults) (s : PairScore)
    (first : Bool) :
    (s.faithfulness = .RESPONSE_1_BETTER →
      (_update_pairwise_counts s first p).faithfulness =
        if first then { p.faithfulness with recsum := p.faithfulness.recsum + 1 }
        else { p.faithfulness with baseline := p.faithfulness.baseline + 1 }) ∧
    (s.faithfulness = .RESPONSE_2_BETTER →
      (_update_pairwise_counts s first p).faithfulness =
        if first then { p.faithfulness with baseline := p.faithfulness.baseline + 1 }
        else { p.faithfulness with recsum := p.faithfulness.recsum + 1 }) ∧
    (s.faithfulness = .TIE →
      (_update_pairwise_counts s first p).faithfulness =
        { p.faithfulness with draw := p.faithfulness.draw + 1 }) ∧
    (s.informativeness = .RESPONSE_1_BETTER →
      (_update_pairwise_counts s first p).informativeness =
        if first then { p.informativeness with recsum := p.informativeness.recsum + 1 }
        else { p.informativeness with baseline := p.informativeness.baseline + 1 }) ∧
    (s.informativeness = .RESPONSE_2_BETTER →
      (_update_pairwise_counts s first p).informativeness =
        if first then { p.informativeness with baseline := p.informativeness.baseline + 1 }
        else { p.informativeness with recsum := p.informativeness.recsum + 1 }) ∧
    (s.informativeness = .TIE →
      (_update_pairwise_counts s first p).informativeness =
        { p.informativeness with draw := p.informativeness.draw + 1 }) ∧
    (s.coherency = .RESPONSE_1_BETTER →
      (_update_pairwise_counts s first p).coherency =
        if first then { p.coherency with recsum := p.coherency.recsum + 1 }
        else { p.coherency with baseline := p.coherency.baseline + 1 }) ∧
    (s.coherency = .RESPONSE_2_BETTER →
      (_update_pairwise_counts s first p).coherency =
        if first then { p.coherency with baseline := p.coherency.baseline + 1 }
        else { p.coherency with recsum := p.coherency.recsum + 1 }) ∧
    (s.coherency = .TIE →
      (_update_pairwise_counts s first p).coherency =
        { p.coherency with draw := p.coherency.draw + 1 }) := by
  refine ⟨?_, ?_, ?_, ?_, ?_, ?_, ?_, ?_, ?_⟩ <;>
    intro h <;> simp [_update_pairwise_counts, bumpCount, h]

/-- Witness for C6: a first-is-better faithfulness result with recsum first. -/
theorem update_pairwise_counts_order_mapping_witness :
    (_update_pairwise_counts ⟨.RESPONSE_1_BETTER, .TIE, .TIE⟩ true
        ({} : PairwiseResults)).faithfulness =
      if true then
        { ({} : PairwiseResults).faithfulness with
            recsum := ({} : PairwiseResults).faithfulness.recsum + 1 }
      else
        { ({} : PairwiseResults).faithfulness with
            baseline := ({} : PairwiseResults).faithfulness.baseline + 1 } :=
  (update_pairwise_counts_order_mapping {} ⟨.RESPONSE_1_BETTER, .TIE, .TIE⟩ true).1 rfl

theorem sum3_bump (pc : PairCounts) (v : ComparisonResult) (first : Bool) :
    sum3 (bumpCount pc v first) = sum3 pc + 1 := by
  cases v <;> cases first <;> simp [bumpCount, sum3] <;> omega

theorem applyJudgments_cons (j : PairScore × Bool) (js : List (PairScore × Bool))
    (p : PairwiseResults) :
    applyJudgments (j :: js) p = applyJudgments js (_update_pairwise_counts j.1 j.2 p) := rfl

/-- Claim C7: after any sequence of completed pairwise judgments, the three
counters of each preference metric sum to the number of judgments, this total is
the same for faithfulness, informativeness and coherency, and
`get_total_count` returns it. -/
theorem pairwise_tally_sum (js : List (PairScore × Bool)) :
    sum3 (applyJudgments js ({} : PairwiseResults)).faithfulness = js.length ∧
    sum3 (applyJudgments js ({} : PairwiseResults)).informativeness = js.length ∧
    sum3 (applyJudgments js ({} : PairwiseResults)).coherency = js.length ∧
    (applyJudgments js ({} : PairwiseResults)).get_total_count = js.length := by
  have key : ∀ (js : List (PairScore × Bool)) (p : PairwiseResults),
      sum3 (applyJudgments js p).faithfulness = sum3 p.faithfulness + js.length ∧
      sum3 (applyJudgments js p).informativeness = sum3 p.informativeness + js.length ∧
      sum3 (applyJudgments js p).coherency = sum3 p.coherency + js.length := by
    intro js
    induction js with
    | nil => intro p; simp [applyJudgments]
    | cons j rest ih =>
      intro p
      rw [applyJudgments_cons]
      obtain ⟨h1, h2, h3⟩ := ih (_update_pairwise_counts j.1 j.2 p)
      have e1 : (_update_pairwise_counts j.1 j.2 p).faithfulness
          = bumpCount p.faithfulness j.1.faithfulness j.2 := rfl
      have e2 : (_update_pairwise_counts j.1 j.2 p).informativeness
          = bumpCount p.informativeness j.1.informativeness j.2 := rfl
      have e3 : (_update_pairwise_counts j.1 j.2 p).coherency
          = bumpCount p.coherency j.1.coherency j.2 := rfl
      refine ⟨?_, ?_, ?_⟩
      · rw [h1, e1, sum3_bump, List.length_cons]; omega
      · rw [h2, e2, sum3_bump, List.length_cons]; omega
      · rw [h3, e3, sum3_bump, List.length_cons]; omega
  obtain ⟨h1, h2, h3⟩ := key js {}
  have htot : (applyJudgments js ({} : PairwiseResults)).get_total_count
      = sum3 (applyJudgments js ({} : PairwiseResults)).faithfulness := rfl
  refine ⟨?_, ?_, ?_, ?_⟩
  · rw [h1]; simp [sum3]
  · rw [h2]; simp [sum3]
  · rw [h3]; simp [sum3]
  · rw [htot, h1]; simp [sum3]

end PairwiseClaims

namespace CalculateMCPMetrics

theorem update_semantic_char (O : Oracles) (rr br ir : String) (σ σ' : MState)
    (h : _update_semantic_scores O rr br ir σ = .ok σ') :
    σ'.sessions = σ.sessions ∧ σ'.memory = σ.memory ∧
    σ'.message_count = σ.message_count ∧ σ'.coin_idx = σ.coin_idx ∧
    σ'.pairwise_data = σ.pairwise_data ∧
    σ'.recsum_llm_data = σ.recsum_llm_data ∧
    σ'.baseline_llm_data = σ.baseline_llm_data ∧
    σ'.recsum_semantic_data.precision.length
      = σ.recsum_semantic_data.precision.length + 1 ∧
    σ'.recsum_semantic_data.«recall».length
      = σ.recsum_semantic_data.«recall».length + 1 ∧
    σ'.recsum_semantic_data.f1.length = σ.recsum_semantic_data.f1.length + 1 ∧
    σ'.baseline_semantic_data.precision.length
      = σ.baseline_semantic_data.precision.length + 1 ∧
    σ'.baseline_semantic_data.«recall».length
      = σ.baseline_semantic_data.«recall».length + 1 ∧
    σ'.baseline_semantic_data.f1.length = σ.baseline_semantic_data.f1.length + 1 := by
  unfold _update_semantic_scores at h
  split at h
  · exact absurd h (by simp)
  · split at h
    · exact absurd h (by simp)
    · injection h with h'
      subst h'
      refine ⟨rfl, rfl, rfl, rfl, rfl, rfl, rfl, ?_, ?_, ?_, ?_, ?_, ?_⟩ <;> simp

theorem update_llm_single_char (O : Oracles) (rr br ctx mem : String) (σ σ' : MState)
    (h : _update_llm_single_scores O rr br ctx mem σ = .ok σ') :
    σ'.sessions = σ.sessions ∧ σ'.memory = σ.memory ∧
    σ'.message_count = σ.message_count ∧ σ'.coin_idx = σ.coin_idx ∧
    σ'.pairwise_data = σ.pairwise_data ∧
    σ'.recsum_semantic_data = σ.recsum_semantic_data ∧
    σ'.baseline_semantic_data = σ.baseline_semantic_data ∧
    σ'.recsum_llm_data.faithfulness.length
      = σ.recsum_llm_data.faithfulness.length + 1 ∧
    σ'.recsum_llm_data.informativeness.length
      = σ.recsum_llm_data.informativeness.length + 1 ∧
    σ'.recsum_llm_data.coherency.length = σ.recsum_llm_data.coherency.length + 1 ∧
    σ'.baseline_llm_data.faithfulness.length
      = σ.baseline_llm_data.faithfulness.length + 1 ∧
    σ'.baseline_llm_data.informativeness.length
      = σ.baseline_llm_data.informativeness.length + 1 ∧
    σ'.baseline_llm_data.coherency.length = σ.baseline_llm_data.coherency.length + 1 := by
  unfold _update_llm_single_scores at h
  split at h
  · exact absurd h (by simp)
  · split at h
    · exact absurd h (by simp)
    · injection h with h'
      subst h'
      refine ⟨rfl, rfl, rfl, rfl, rfl, rfl, rfl, ?_, ?_, ?_, ?_, ?_, ?_⟩ <;> simp

theorem update_pairwise_char (O : Oracles) (ctx mem rr br : String) (σ σ' : MState)
    (h : _update_llm_pairwise_scores O ctx mem rr br σ = .ok σ') :
    σ'.sessions = σ.sessions ∧ σ'.memory = σ.memory ∧
    σ'.message_count = σ.message_count ∧
    σ'.recsum_semantic_data = σ.recsum_semantic_data ∧
    σ'.baseline_semantic_data = σ.baseline_semantic_data ∧
    σ'.recsum_llm_data = σ.recsum_llm_data ∧
    σ'.baseline_llm_data = σ.baseline_llm_data := by
  unfold _update_llm_pairwise_scores at h
  cases hc : O.coins σ.coin_idx
  · simp only [hc, Bool.false_eq_true, if_false] at h
    split at h
    · exact absurd h (by simp)
    · injection h with h'
      subst h'
      exact ⟨rfl, rfl, rfl, rfl, rfl, rfl, rfl⟩
  · simp only [hc, eq_self_iff_true, if_true] at h
    split at h
    · exact absurd h (by simp)
    · injection h with h'
      subst h'
      exact ⟨rfl, rfl, rfl, rfl, rfl, rfl, rfl⟩

theorem isOkE_iff (e : ExceptSt) : isOkE e = true ↔ ∃ σ', e = .ok σ' := by
  cases e <;> simp [isOkE]

theorem update_semantic_total (O : Oracles) (rr br ir : String) (σ : MState)
    (hsem : ∀ a b, (O.semantic a b).isSome) :
    ∃ σ', _update_semantic_scores O rr br ir σ = .ok σ' := by
  obtain ⟨s1, hs1⟩ := Option.isSome_iff_exists.mp (hsem rr ir)
  obtain ⟨s2, hs2⟩ := Option.isSome_iff_exists.mp (hsem br ir)
  rw [← isOkE_iff]
  unfold _update_semantic_scores
  rw [hs1, hs2]
  rfl

theorem update_llm_single_total (O : Oracles) (rr br ctx mem : String) (σ : MState)
    (hllm : ∀ a b c, (O.llm_single a b c).isSome) :
    ∃ σ', _update_llm_single_scores O rr br ctx mem σ = .ok σ' := by
  obtain ⟨s1, hs1⟩ := Option.isSome_iff_exists.mp (hllm ctx mem rr)
  obtain ⟨s2, hs2⟩ := Option.isSome_iff_exists.mp (hllm ctx mem br)
  rw [← isOkE_iff]
  unfold _update_llm_single_scores
  rw [hs1, hs2]
  rfl

theorem update_pairwise_total (O : Oracles) (ctx mem rr br : String) (σ : MState)
    (hpw : ∀ a b c d, (O.llm_pairwise a b c d).isSome) :
    ∃ σ', _update_llm_pairwise_scores O ctx mem rr br σ = .ok σ' := by
  rw [← isOkE_iff]
  unfold _update_llm_pairwise_scores
  cases hc : O.coins σ.coin_idx
  · obtain ⟨s, hs⟩ := Option.isSome_iff_exists.mp (hpw ctx mem br rr)
    simp only [hc, Bool.false_eq_true, if_false, hs]
    rfl
  · obtain ⟨s, hs⟩ := Option.isSome_iff_exists.mp (hpw ctx mem rr br)
    simp only [hc, eq_self_iff_true, if_true, hs]
    rfl

theorem dialogue_loop_total_ok (O : Oracles) (hO : O.Total) (i : ℕ) (front : List Block)
    (ideal : Msg) (m : List String) (hm : m ≠ []) :
    ∀ (rmsgs : List Msg) (σ : MState), σ.memory[i]? = some m →
      isOkE (dialogue_loop O i front ideal rmsgs σ) = true ∧
      (stateOf (dialogue_loop O i front ideal rmsgs σ)).message_count
        = σ.message_count + rmsgs.length ∧
      (stateOf (dialogue_loop O i front ideal rmsgs σ)).memory = σ.memory := by
  obtain ⟨h1, h2, h3, h4, h5⟩ := hO
  obtain ⟨mv, hml⟩ := Option.isSome_iff_exists.mp (List.getLast?_isSome.mpr hm)
  intro rmsgs
  induction rmsgs with
  | nil =>
    intro σ _
    exact ⟨rfl, by simp [dialogue_loop, stateOf], rfl⟩
  | cons q rest ih =>
    intro σ hσ
    obtain ⟨rr, hrr⟩ :=
      Option.isSome_iff_exists.mp (h1 (front ++ [⟨rest.reverse⟩]) q.message)
    obtain ⟨br, hbr⟩ :=
      Option.isSome_iff_exists.mp (h2 (front ++ [⟨rest.reverse⟩]) q.message)
    obtain ⟨σ1, hσ1⟩ := update_semantic_total O rr br ideal.message
      (setSession { σ with message_count := σ.message_count + 1 } i
        (front ++ [⟨rest.reverse⟩])) h3
    obtain ⟨hb1, hb2, hb3, _, _, _, _, _, _, _, _, _, _⟩ :=
      update_semantic_char O rr br ideal.message _ _ hσ1
    have hσ1mem : σ1.memory[i]? = some m := by rw [hb2]; exact hσ
    obtain ⟨σ2, hσ2⟩ := update_llm_single_total O rr br
      (O.render ⟨rest.reverse⟩) mv σ1 h4
    obtain ⟨hc1, hc2, hc3, _, _, _, _, _, _, _, _, _, _⟩ :=
      update_llm_single_char O rr br (O.render ⟨rest.reverse⟩) mv _ _ hσ2
    obtain ⟨σ3, hσ3⟩ := update_pairwise_total O
      (O.render ⟨rest.reverse⟩) mv rr br σ2 h5
    obtain ⟨hd1, hd2, hd3, _, _, _, _⟩ :=
      update_pairwise_char O (O.render ⟨rest.reverse⟩) mv rr br _ _ hσ3
    have hstep : dialogue_loop O i front ideal (q :: rest) σ
        = dialogue_loop O i front ideal rest σ3 := by
      simp only [dialogue_loop]
      rw [hrr, hbr]
      simp only [hσ1, hσ1mem, hml, hσ2, hσ3]
    have hσ3mem : σ3.memory[i]? = some m := by
      rw [hd2, hc2]; exact hσ1mem
    obtain ⟨g1, g2, g3⟩ := ih σ3 hσ3mem
    rw [hstep]
    refine ⟨g1, ?_, ?_⟩
    · rw [g2, hd3, hc3, hb3, List.length_cons]
      simp only [setSession]
      omega
    · rw [g3, hd2, hc2, hb2]
      rfl

theorem dialogue_loop_ok_facts (O : Oracles) (i : ℕ) (front : List Block) (ideal : Msg) :
    ∀ (rmsgs : List Msg) (σ σ' : MState),
      dialogue_loop O i front ideal rmsgs σ = .ok σ' →
      (Balanced σ → Balanced σ') ∧
      (∀ j, j ≠ i → σ'.sessions[j]? = σ.sessions[j]?) ∧
      σ'.sessions.length = σ.sessions.length ∧
      σ'.memory = σ.memory := by
  intro rmsgs
  induction rmsgs with
  | nil =>
    intro σ σ' h
    injection h with h'
    subst h'
    exact ⟨id, fun _ _ => rfl, rfl, rfl⟩
  | cons q rest ih =>
    intro σ σ' h
    unfold dialogue_loop at h
    cases hrr : O.recsum (front ++ [⟨rest.reverse⟩]) q.message with
    | none =>
      simp only [hrr] at h
      exact absurd h (by simp)
    | some rr =>
    cases hbr : O.baseline (front ++ [⟨rest.reverse⟩]) q.message with
    | none =>
      simp only [hrr, hbr] at h
      exact absurd h (by simp)
    | some br =>
    cases hsem : _update_semantic_scores O rr br ideal.message
        (setSession { σ with message_count := σ.message_count + 1 } i
          (front ++ [⟨rest.reverse⟩])) with
    | error σe =>
      simp only [hrr, hbr, hsem] at h
      exact absurd h (by simp)
    | ok σ1 =>
    cases hmem : σ1.memory[i]? with
    | none =>
      simp only [hrr, hbr, hsem, hmem] at h
      exact absurd h (by simp)
    | some mrow =>
    cases hml : mrow.getLast? with
    | none =>
      simp only [hrr, hbr, hsem, hmem, hml] at h
      exact absurd h (by simp)
    | some mem =>
    cases hsingle : _update_llm_single_scores O rr br
        (O.render ⟨rest.reverse⟩) mem σ1 with
    | error σe =>
      simp only [hrr, hbr, hsem, hmem, hml, hsingle] at h
      exact absurd h (by simp)
    | ok σ2 =>
    cases hpair : _update_llm_pairwise_scores O
        (O.render ⟨rest.reverse⟩) mem rr br σ2 with
    | error σe =>
      simp only [hrr, hbr, hsem, hmem, hml, hsingle, hpair] at h
      exact absurd h (by simp)
    | ok σ3 =>
    simp only [hrr, hbr, hsem, hmem, hml, hsingle, hpair] at h
    obtain ⟨a1, a2, _, _, _, a6, a7, p1, p2, p3, p4, p5, p6⟩ :=
      update_semantic_char O rr br ideal.message _ σ1 hsem
    obtain ⟨c1, c2, _, _, _, c6, c7, u1, u2, u3, u4, u5, u6⟩ :=
      update_llm_single_char O rr br (O.render ⟨rest.reverse⟩) mem σ1 σ2 hsingle
    obtain ⟨d1, d2, _, d4, d5, d6, d7⟩ :=
      update_pairwise_char O (O.render ⟨rest.reverse⟩) mem rr br σ2 σ3 hpair
    obtain ⟨ihb, ihf, ihl, ihm⟩ := ih σ3 σ' h
    refine ⟨?_, ?_, ?_, ?_⟩
    · intro hb
      apply ihb
      obtain ⟨q1, q2, q3, q4, q5, q6⟩ := hb
      have hb1 : Balanced σ1 := by
        refine ⟨?_, ?_, ?_, ?_, ?_, ?_⟩
        · rw [p1, p4]; exact congrArg (· + 1) q1
        · rw [p2, p5]; exact congrArg (· + 1) q2
        · rw [p3, p6]; exact congrArg (· + 1) q3
        · rw [a6, a7]; exact q4
        · rw [a6, a7]; exact q5
        · rw [a6, a7]; exact q6
      obtain ⟨w1, w2, w3, w4, w5, w6⟩ := hb1
      have hb2 : Balanced σ2 := by
        refine ⟨?_, ?_, ?_, ?_, ?_, ?_⟩
        · rw [c6, c7]; exact w1
        · rw [c6, c7]; exact w2
        · rw [c6, c7]; exact w3
        · rw [u1, u4]; exact congrArg (· + 1) w4
        · rw [u2, u5]; exact congrArg (· + 1) w5
        · rw [u3, u6]; exact congrArg (· + 1) w6
      obtain ⟨v1, v2, v3, v4, v5, v6⟩ := hb2
      refine ⟨?_, ?_, ?_, ?_, ?_, ?_⟩
      · rw [d4, d5]; exact v1
      · rw [d4, d5]; exact v2
      · rw [d4, d5]; exact v3
      · rw [d6, d7]; exact v4
      · rw [d6, d7]; exact v5
      · rw [d6, d7]; exact v6
    · intro j hj
      rw [ihf j hj, d1, c1, a1]
      simp only [setSession]
      exact List.getElem?_set_ne (Ne.symm hj)
    · rw [ihl, d1, c1, a1]
      simp [setSession]
    · rw [ihm, d2, c2, a2]
      rfl

theorem process_dialogue_ok_facts (O : Oracles) (σ σ' : MState) (i : ℕ)
    (h : _process_dialogue O σ i = .ok σ') :
    (Balanced σ → Balanced σ') ∧
    (∀ j, j ≠ i → σ'.sessions[j]? = σ.sessions[j]?) ∧
    σ'.sessions.length = σ.sessions.length ∧
    σ'.memory = σ.memory ∧
    (∃ b, (σ.sessions.getD i []).getLast? = some b ∧ b.messages ≠ []) := by
  unfold _process_dialogue at h
  cases hlast : (σ.sessions.getD i []).getLast? with
  | none =>
    simp only [hlast] at h
    exact absurd h (by simp)
  | some last =>
    cases hrev : last.messages.reverse with
    | nil =>
      simp only [hlast, hrev] at h
      exact absurd h (by simp)
    | cons ideal rest =>
      simp only [hlast, hrev] at h
      obtain ⟨fb, ff, fl, fm⟩ := dialogue_loop_ok_facts O i _ ideal rest _ σ' h
      refine ⟨fun hb => fb hb, ?_, ?_, ?_, ?_⟩
      · intro j hj
        rw [ff j hj]
        simp only [setSession]
        exact List.getElem?_set_ne (Ne.symm hj)
      · rw [fl]
        simp [setSession]
      · rw [fm]
        rfl
      · refine ⟨last, rfl, fun hn => ?_⟩
        rw [hn] at hrev
        simp at hrev

theorem calculate_loop_ok_facts (O : Oracles) :
    ∀ (idxs : List ℕ) (σ σ' : MState), idxs.Nodup → calculate_loop O idxs σ = .ok σ' →
      (Balanced σ → Balanced σ') ∧
      (∀ i ∈ idxs, ∃ b, (σ.sessions.getD i []).getLast? = some b ∧ b.messages ≠ []) := by
  intro idxs
  induction idxs with
  | nil =>
    intro σ σ' _ h
    injection h with h'
    subst h'
    exact ⟨id, by simp⟩
  | cons i rest ih =>
    intro σ σ' hnd h
    unfold calculate_loop at h
    split at h
    · exact absurd h (by simp)
    · rename_i σ1 hproc
      obtain ⟨fb, ff, _, _, fpre⟩ := process_dialogue_ok_facts O σ σ1 i hproc
      obtain ⟨gb, gpre⟩ := ih σ1 σ' (List.Nodup.of_cons hnd) h
      refine ⟨fun hb => gb (fb hb), ?_⟩
      intro i' hi'
      rcases List.mem_cons.mp hi' with rfl | hmem
      · exact fpre
      · have hne : i' ≠ i := by
          rintro rfl
          exact (List.nodup_cons.mp hnd).1 hmem
        obtain ⟨b, hb1, hb2⟩ := gpre i' hmem
        refine ⟨b, ?_, hb2⟩
        rw [List.getD_eq_getElem?_getD, ← ff i' hne, ← List.getD_eq_getElem?_getD]
        exact hb1

/-- Claim C5: for a session whose final block holds `k ≥ 1` messages (and succeeding
collaborators and an available memory row), `_process_dialogue` returns normally and
processes exactly `k - 1` turns: the final message is reserved as the ideal response
and each loop iteration pops one query, so the global turn counter grows by `k - 1`;
with `k = 1` no turn is processed and no error is raised. -/
theorem process_dialogue_turn_count (O : Oracles) (σ : MState) (i : ℕ)
    (front : List Block) (b : Block) (m : List String)
    (hO : O.Total)
    (hs : σ.sessions.getD i [] = front ++ [b])
    (hk : b.messages ≠ [])
    (hmem : σ.memory[i]? = some m) (hm : m ≠ []) :
    isOkE (_process_dialogue O σ i) = true ∧
    (stateOf (_process_dialogue O σ i)).message_count
      = σ.message_count + (b.messages.length - 1) := by
  cases hrev : b.messages.reverse with
  | nil => exact absurd (List.reverse_eq_nil_iff.mp hrev) hk
  | cons ideal rest =>
    have hunf : _process_dialogue O σ i
        = dialogue_loop O i front ideal rest
            (setSession σ i (front ++ [⟨rest.reverse⟩])) := by
      unfold _process_dialogue
      simp only [hs, List.getLast?_concat, List.dropLast_concat, hrev]
    have hmem0 : (setSession σ i (front ++ [⟨rest.reverse⟩])).memory[i]? = some m := hmem
    obtain ⟨g1, g2, _⟩ := dialogue_loop_total_ok O hO i front ideal m hm rest _ hmem0
    rw [hunf]
    refine ⟨g1, ?_⟩
    rw [g2]
    have hlen : b.messages.length = rest.length + 1 := by
      have hc := congrArg List.length hrev
      simpa using hc
    simp only [setSession]
    omega

/-- Witness for C5: one session with one query plus the ideal response processes
exactly one turn. -/
theorem process_dialogue_turn_count_witness :
    isOkE (_process_dialogue totalOracles stOneQuery 0) = true ∧
    (stateOf (_process_dialogue totalOracles stOneQuery 0)).message_count
      = stOneQuery.message_count + ((Block.mk [⟨"q"⟩, ⟨"i"⟩]).messages.length - 1) :=
  process_dialogue_turn_count totalOracles stOneQuery 0 [] ⟨[⟨"q"⟩, ⟨"i"⟩]⟩ ["m"]
    totalOracles_total rfl (by decide) rfl (by decide)

/-- Claim C8: the recsum and baseline raw-sample buffers of each metric keep equal
lengths through any run of completed turns (the replay loop) and through a whole
`calculate` pass: every completed turn appends exactly one sample per metric to
both systems. -/
theorem raw_buffers_balanced (O : Oracles) :
    (∀ (i : ℕ) (front : List Block) (ideal : Msg) (rmsgs : List Msg) (σ σ' : MState),
        dialogue_loop O i front ideal rmsgs σ = .ok σ' → Balanced σ → Balanced σ') ∧
    (∀ σ σ' : MState, calculate O σ = .ok σ' → Balanced σ → Balanced σ') := by
  constructor
  · intro i front ideal rmsgs σ σ' h hb
    exact (dialogue_loop_ok_facts O i front ideal rmsgs σ σ' h).1 hb
  · intro σ σ' h hb
    unfold calculate at h
    split at h
    · exact absurd h (by simp)
    · rename_i σ1 hloop
      injection h with h'
      subst h'
      exact (calculate_loop_ok_facts O (List.range σ.sessions.length) σ σ1
        (List.nodup_range _) hloop).1 hb

/-- Witness for C8: a full run over one two-message session keeps the buffers
balanced. -/
theorem raw_buffers_balanced_witness :
    Balanced (stateOf (calculate totalOracles stOneQuery)) :=
  (raw_buffers_balanced totalOracles).2 stOneQuery
    (stateOf (calculate totalOracles stOneQuery)) rfl (by decide)

/-- Claim C10: replaying a session needs at least one message in its final block:
with an empty final message list `_process_dialogue` raises at the ideal-response
pop, and a normal return of `calculate` forces every stored session to end in a
block with at least one message. -/
theorem process_requires_final_message (O : Oracles) (σ σ' : MState) (i : ℕ) :
    (∀ b, (σ.sessions.getD i []).getLast? = some b → b.messages = [] →
        _process_dialogue O σ i = .error σ) ∧
    (calculate O σ = .ok σ' → ∀ (j : ℕ) (s : Session), σ.sessions[j]? = some s →
        ∃ b, s.getLast? = some b ∧ b.messages ≠ []) := by
  constructor
  · intro b hb hm
    unfold _process_dialogue
    simp only [hb, hm, List.reverse_nil]
  · intro h j s hs
    unfold calculate at h
    cases hloop : calculate_loop O (List.range σ.sessions.length) σ with
    | error σe =>
      rw [hloop] at h
      exact absurd h (by simp)
    | ok σ1 =>
      obtain ⟨_, gpre⟩ := calculate_loop_ok_facts O (List.range σ.sessions.length) σ σ1
        (List.nodup_range _) hloop
      have hlt : j < σ.sessions.length := by
        obtain ⟨hlt, _⟩ := List.getElem?_eq_some_iff.mp hs
        exact hlt
      obtain ⟨b, hb1, hb2⟩ := gpre j (List.mem_range.mpr hlt)
      refine ⟨b, ?_, hb2⟩
      rw [List.getD_eq_getElem?_getD, hs, Option.getD_some] at hb1
      exact hb1

/-- Witness for C10: a session whose final block has no messages makes
`_process_dialogue` raise immediately. -/
theorem process_requires_final_message_witness :
    _process_dialogue totalOracles stEmptyFinal 0 = .error stEmptyFinal :=
  (process_requires_final_message totalOracles stEmptyFinal stEmptyFinal 0).1 ⟨[]⟩ rfl rfl

theorem calculate_loop_append (O : Oracles) (is1 is2 : List ℕ) (σ : MState) :
    calculate_loop O (is1 ++ is2) σ =
      match calculate_loop O is1 σ with
      | .error σ1 => .error σ1
      | .ok σ1 => calculate_loop O is2 σ1 := by
  induction is1 generalizing σ with
  | nil => rfl
  | cons i rest ih =>
    show calculate_loop O (i :: (rest ++ is2)) σ = _
    cases hproc : _process_dialogue O σ i with
    | error σ1 =>
      have hL : calculate_loop O (i :: (rest ++ is2)) σ = .error σ1 := by
        show (match _process_dialogue O σ i with
          | Except.error σe => Except.error σe
          | Except.ok σn => calculate_loop O (rest ++ is2) σn) = Except.error σ1
        rw [hproc]
      have hR : calculate_loop O (i :: rest) σ = Except.error σ1 := by
        show (match _process_dialogue O σ i with
          | Except.error σe => Except.error σe
          | Except.ok σn => calculate_loop O rest σn) = Except.error σ1
        rw [hproc]
      rw [hL, hR]
    | ok σ1 =>
      have hL : calculate_loop O (i :: (rest ++ is2)) σ
          = calculate_loop O (rest ++ is2) σ1 := by
        show (match _process_dialogue O σ i with
          | Except.error σe => Except.error σe
          | Except.ok σn => calculate_loop O (rest ++ is2) σn)
            = calculate_loop O (rest ++ is2) σ1
        rw [hproc]
      have hR : calculate_loop O (i :: rest) σ = calculate_loop O rest σ1 := by
        show (match _process_dialogue O σ i with
          | Except.error σe => Except.error σe
          | Except.ok σn => calculate_loop O rest σn) = calculate_loop O rest σ1
        rw [hproc]
      rw [hL, hR]
      exact ih σ1

/-- Claim C1 counterexample: with a pairwise judge that always raises, a
two-session run aborts globally: `calculate` raises after the first turn of the
first session (turn counter 1), the second session is never attempted (its
messages are untouched), the samples appended before the raise stay in the
buffers, and the run is not marked calculated. -/
theorem calculate_global_abort_cex :
    isOkE (calculate pairFailOracles stTwoSessions) = false ∧
    (stateOf (calculate pairFailOracles stTwoSessions)).message_count = 1 ∧
    (stateOf (calculate pairFailOracles stTwoSessions)).recsum_llm_data.faithfulness.length
      = 1 ∧
    (stateOf (calculate pairFailOracles stTwoSessions)).sessions[1]?
      = some [⟨[⟨"c"⟩, ⟨"d"⟩]⟩] ∧
    (stateOf (calculate pairFailOracles stTwoSessions)).is_calculated = false := by
  decide

/-- Claim C1 amended: a scorer or system-under-test failure inside
`_process_dialogue` propagates out of `calculate` as a global abort whose state is
exactly the state at the raise: samples appended before the failure are retained
(no rollback), but the sessions after the failing one are not attempted. -/
theorem calculate_failure_propagates (O : Oracles) (σ σ1 σ2 : MState)
    (idxs1 idxs2 : List ℕ) (i : ℕ)
    (h1 : calculate_loop O idxs1 σ = .ok σ1)
    (h2 : _process_dialogue O σ1 i = .error σ2)
    (h3 : List.range σ.sessions.length = idxs1 ++ i :: idxs2) :
    calculate O σ = .error σ2 := by
  have hstep : calculate_loop O (i :: idxs2) σ1 = .error σ2 := by
    unfold calculate_loop
    rw [h2]
  have hfull : calculate_loop O (List.range σ.sessions.length) σ = .error σ2 := by
    rw [h3, calculate_loop_append, h1]
    exact hstep
  unfold calculate
  rw [hfull]

/-- Witness for C1: the concrete two-session run with the raising pairwise judge. -/
theorem calculate_failure_propagates_witness :
    calculate pairFailOracles stTwoSessions =
      .error (stateOf (_process_dialogue pairFailOracles stTwoSessions 0)) :=
  calculate_failure_propagates pairFailOracles stTwoSessions stTwoSessions
    (stateOf (_process_dialogue pairFailOracles stTwoSessions 0)) [] [1] 0 rfl rfl
    (by decide)

theorem calculate_ok_is_calculated (O : Oracles) (σ σ' : MState)
    (h : calculate O σ = .ok σ') : σ'.is_calculated = true := by
  unfold calculate at h
  split at h
  · exact absurd h (by simp)
  · injection h with h'
    subst h'
    rfl

/-- Claim C2 counterexample: the `results` property rebuilds the report on every
access, stamping the access time, so two accesses of the same already-calculated
object return reports that are not identical (their metadata differ). -/
theorem results_not_cached_cex :
    results totalOracles stCalculated 0 = .ok (buildReport stCalculated 0, stCalculated) ∧
    results totalOracles stCalculated 1 = .ok (buildReport stCalculated 1, stCalculated) ∧
    buildReport stCalculated 0 ≠ buildReport stCalculated 1 := by
  refine ⟨rfl, rfl, by decide⟩

/-- Claim C2 amended: after one access of `results`, a second access without an
intervening `calculate` performs no further state change and rebuilds the report
from the same accumulators, so every statistical component (both systems of
`MetricStats` and the pairwise tallies) is identical; only the freshly stamped
metadata may differ. -/
theorem results_stats_stable (O : Oracles) (σ σ1 : MState) (t1 t2 : ℕ) (r1 : MCPResults)
    (h : results O σ t1 = .ok (r1, σ1)) :
    results O σ1 t2 = .ok (buildReport σ1 t2, σ1) ∧
    (buildReport σ1 t2).recsum_results = r1.recsum_results ∧
    (buildReport σ1 t2).baseline_results = r1.baseline_results ∧
    (buildReport σ1 t2).pairwise_results = r1.pairwise_results := by
  unfold results at h
  by_cases hc : σ.is_calculated = true
  · rw [if_pos hc] at h
    injection h with h'
    have hr : r1 = buildReport σ t1 := ((Prod.mk.injEq _ _ _ _).mp h').1.symm
    have hs : σ1 = σ := ((Prod.mk.injEq _ _ _ _).mp h').2.symm
    subst hr
    subst hs
    unfold results
    rw [if_pos hc]
    exact ⟨rfl, rfl, rfl, rfl⟩
  · rw [if_neg hc] at h
    cases hcal : calculate O σ with
    | error σe =>
      rw [hcal] at h
      exact absurd h (by simp)
    | ok σc =>
      rw [hcal] at h
      injection h with h'
      have hr : r1 = buildReport σc t1 := ((Prod.mk.injEq _ _ _ _).mp h').1.symm
      have hs : σ1 = σc := ((Prod.mk.injEq _ _ _ _).mp h').2.symm
      subst hr
      subst hs
      have hcalc : σ1.is_calculated = true := calculate_ok_is_calculated O σ σ1 hcal
      unfold results
      rw [if_pos hcalc]
      exact ⟨rfl, rfl, rfl, rfl⟩

/-- Witness for C2: two accesses of an already-calculated object agree on all
statistics. -/
theorem results_stats_stable_witness :
    results totalOracles stCalculated 1 = .ok (buildReport stCalculated 1, stCalculated) ∧
    (buildReport stCalculated 1).recsum_results
      = (buildReport stCalculated 0).recsum_results ∧
    (buildReport stCalculated 1).baseline_results
      = (buildReport stCalculated 0).baseline_results ∧
    (buildReport stCalculated 1).pairwise_results
      = (buildReport stCalculated 0).pairwise_results :=
  results_stats_stable totalOracles stCalculated stCalculated 0 1
    (buildReport stCalculated 0) rfl

/-- Claim C3 counterexample: a first `calculate` over a one-session dataset
returns normally, but calling `calculate` again on the resulting object raises
(pop from the emptied final message list) instead of being a no-op. -/
theorem calculate_twice_errors_cex :
    isOkE (calculate totalOracles stIdealOnly) = true ∧
    isOkE (calculate totalOracles (stateOf (calculate totalOracles stIdealOnly))) = false := by
  decide

/-- Claim C3 amended: `calculate` has no already-calculated guard; after a
completed run, the final block of each processed session is empty, so a second
`calculate` on a state whose first session ends in an empty block raises at the
ideal-response pop before changing anything. -/
theorem calculate_second_call_errors (O : Oracles) (σ σ' : MState) (s : Session) (b : Block)
    (_h0 : calculate O σ = .ok σ')
    (h1 : σ'.sessions.head? = some s)
    (h2 : s.getLast? = some b)
    (h3 : b.messages = []) :
    calculate O σ' = .error σ' := by
  obtain ⟨tail, hss⟩ : ∃ tail, σ'.sessions = s :: tail := by
    cases hsv : σ'.sessions with
    | nil => rw [hsv] at h1; cases h1
    | cons a t =>
      rw [hsv] at h1
      injection h1 with h1'
      exact ⟨t, by rw [h1']⟩
  have hproc : _process_dialogue O σ' 0 = .error σ' := by
    have hgd : σ'.sessions.getD 0 [] = s := by rw [hss]; rfl
    unfold _process_dialogue
    simp only [hgd, h2, h3, List.reverse_nil]
  unfold calculate
  rw [hss, List.length_cons, List.range_succ_eq_map]
  have hloop : calculate_loop O (0 :: List.map Nat.succ (List.range tail.length)) σ'
      = .error σ' := by
    unfold calculate_loop
    rw [hproc]
  rw [hloop]

/-- Witness for C3: the concrete second call after a completed one-session run. -/
theorem calculate_second_call_errors_witness :
    calculate totalOracles (stateOf (calculate totalOracles stIdealOnly)) =
      .error (stateOf (calculate totalOracles stIdealOnly)) :=
  calculate_second_call_errors totalOracles stIdealOnly
    (stateOf (calculate totalOracles stIdealOnly)) [Block.mk []] (Block.mk [])
    rfl rfl rfl rfl

/-- Claim C4: `calculate` copies only the outer session list (`sessions.copy()` is
shallow); the final block of each session is popped empty in place, so after a run
the stored sessions differ from their state at load time. -/
theorem calculate_mutates_sessions :
    isOkE (calculate totalOracles stOneQuery) = true ∧
    (stateOf (calculate totalOracles stOneQuery)).sessions = [[⟨[]⟩]] ∧
    stOneQuery.sessions = [[⟨[⟨"q"⟩, ⟨"i"⟩]⟩]] ∧
    (stateOf (calculate totalOracles stOneQuery)).sessions ≠ stOneQuery.sessions := by
  decide

end CalculateMCPMetrics

end RecapKt
